import Mathlib

/-!
Verification development for the task-fulfillment webhook in
`src/student/main.py`: a shallow embedding of the code-generation
retry loop (`generate_code_with_llm`), the webhook entry point
(`handle_task`, `round1`, `validate_secret`) and the publishing
helper (`push_files_to_repo`), together with theorems settling the
specification's claims about them.

Modelling conventions:
* The generative backend is a parameter `backend : Nat → Outcome`
  giving, for each attempt index, what the combination of
  `client.models.generate_content` and the subsequent parse step does.
* Side effects are reified as an event trace (`GenEvent`): one event
  per outbound backend call and one per `time.sleep`.
* A Python exception escaping a function is modelled as `Except.error`
  carrying the exception's message string.
-/

set_option maxHeartbeats 1000000

namespace StudentMain

/-- Schema for a single generated file (`class CodeFile(BaseModel)` in the
source): a filename and the complete content of the file.  Pydantic's `str`
fields accept any string, including the empty string. -/
structure CodeFile where
  name : String
  content : String
deriving DecidableEq

/-- Constant `MAX_RETRIES = 5` from the source. -/
def MAX_RETRIES : Nat := 5

/-- Constant `INITIAL_DELAY = 4` from the source (seconds; doubles each
attempt: 4, 8, 16, 32, ...). -/
def INITIAL_DELAY : Nat := 4

/-- The fixed `MIT_LICENSE_TEXT` string constant from the source (a Python
triple-quoted string beginning and ending with a newline). -/
def MIT_LICENSE_TEXT : String :=
"
MIT License

Copyright (c) [YEAR] [FULL NAME]

Permission is hereby granted, free of charge, to any person obtaining a copy
of this software and associated documentation files (the \"Software\"), to deal
in the Software without restriction, including without limitation the rights
to use, copy, modify, merge, publish, distribute, sublicense, and/or sell
copies of the Software, and to permit persons to whom the Software is
furnished to do so, subject to the following conditions:

The above copyright notice and this permission notice shall be included in all
copies or substantial portions of the Software.

THE SOFTWARE IS PROVIDED \"AS IS\", WITHOUT WARRANTY OF ANY KIND, EXPRESS OR
IMPLIED, INCLUDING BUT NOT LIMITED TO THE WARRANTIES OF MERCHANTABILITY,
FITNESS FOR A PARTICULAR PURPOSE AND NONINFRINGEMENT. IN NO EVENT SHALL THE
AUTHORS OR COPYRIGHT HOLDERS BE LIABLE FOR ANY CLAIM, DAMAGES OR OTHER
LIABILITY, WHETHER IN AN ACTION OF CONTRACT, TORT OR OTHERWISE, ARISING FROM,
OUT OF OR IN CONNECTION WITH THE SOFTWARE OR THE USE OR OTHER DEALINGS IN THE
SOFTWARE.
"

/-- The license entry appended by the success path of the loop:
`files.append({"name": "LICENSE", "content": MIT_LICENSE_TEXT})`. -/
def licenseFile : CodeFile := { name := "LICENSE", content := MIT_LICENSE_TEXT }

/-- Observable side effects of one invocation of the retry loop: an outbound
call to the generative backend, or a `time.sleep` of the given duration. -/
inductive GenEvent where
  | callBackend : GenEvent
  | sleep (duration : Nat) : GenEvent
deriving DecidableEq

/-- What one attempt's backend interaction does, covering both the
`client.models.generate_content` call and the inner parse/validate step:

* `apiError e`   — the call raises `APIError` with message `e`;
* `genError e`   — the call raises some other exception (network/timeout)
                   with message `e`;
* `badParse e raw` — the call returns, but the inner block
  (`response.parsed` / `.files` / `model_dump` / the isinstance check)
  raises an exception with message `e`; `raw` is `response.text`;
* `parsed files raw` — the call returns and `response.parsed` yields a
  `GeneratedCode` whose `.files` dump to `files` (a list of dicts always
  passes the isinstance check). -/
inductive Outcome where
  | apiError (msg : String)
  | genError (msg : String)
  | badParse (msg : String) (raw : String)
  | parsed (files : List CodeFile) (raw : String)
deriving DecidableEq

/-- Error message recorded on the `except APIError` path:
`f"Gemini API Error: {e}"`. -/
def apiErrorMsg (e : String) : String := "Gemini API Error: " ++ e

/-- Error message recorded on the generic `except Exception` path:
`f"Network or General Error: {e}"`. -/
def genErrorMsg (e : String) : String := "Network or General Error: " ++ e

/-- Error message recorded on the inner parse-failure path:
`f"Invalid JSON/Schema from LLM: {e}. Raw Text: {response.text[:200]}..."`. -/
def schemaErrorMsg (e raw : String) : String :=
  "Invalid JSON/Schema from LLM: " ++ e ++ ". Raw Text: " ++ raw.take 200 ++ "..."

/-- The exception raised when the loop completes without success:
`f"Failed to generate code after {MAX_RETRIES} attempts. Last error: {last_error_message}"`. -/
def exhaustedMsg (lastErr : String) : String :=
  "Failed to generate code after " ++ toString MAX_RETRIES ++
    " attempts. Last error: " ++ lastErr

/-- True when the attempt does not reach the success path (`return files`):
the call raised, or the parse/validate step raised. -/
def Outcome.isFailing : Outcome → Bool
  | .parsed _ _ => false
  | _ => true

/-- True when the backend call itself raised (either handler), as opposed to
returning a response whose parsing failed. -/
def Outcome.isFault : Outcome → Bool
  | .apiError _ => true
  | .genError _ => true
  | _ => false

/-- The `last_error_message` value recorded by a failing attempt with this
outcome. -/
def Outcome.errMsg : Outcome → String
  | .apiError e => apiErrorMsg e
  | .genError e => genErrorMsg e
  | .badParse e raw => schemaErrorMsg e raw
  | .parsed _ _ => ""

/-- The body of `for attempt in range(MAX_RETRIES)` in
`generate_code_with_llm`, indexed by the current attempt number and the
number of loop iterations still permitted (`fuel = MAX_RETRIES - attempt` at
the top-level call).  Mirrors the source exactly:

* success path: `files.append({"name": "LICENSE", ...}); return files`;
* inner parse failure: record message, `time.sleep(delay)`, `continue`
  (note: this path sleeps unconditionally, with no final-attempt guard);
* `except APIError` / `except Exception`: record message, and
  `time.sleep(delay)` only `if attempt < MAX_RETRIES - 1`, else `break`;
* loop falls through (fuel exhausted): `raise Exception(...)` carrying the
  last recorded error message. -/
def runAttempts (backend : Nat → Outcome) :
    Nat → Nat → String → List GenEvent × Except String (List CodeFile)
  | _, 0, lastErr => ([], Except.error (exhaustedMsg lastErr))
  | attempt, fuel + 1, _lastErr =>
    match backend attempt with
    | Outcome.parsed files _raw =>
      ([GenEvent.callBackend], Except.ok (files ++ [licenseFile]))
    | Outcome.badParse e raw =>
      let rest := runAttempts backend (attempt + 1) fuel (schemaErrorMsg e raw)
      (GenEvent.callBackend :: GenEvent.sleep (INITIAL_DELAY * 2 ^ attempt) :: rest.1,
        rest.2)
    | Outcome.apiError e =>
      if attempt < MAX_RETRIES - 1 then
        let rest := runAttempts backend (attempt + 1) fuel (apiErrorMsg e)
        (GenEvent.callBackend :: GenEvent.sleep (INITIAL_DELAY * 2 ^ attempt) :: rest.1,
          rest.2)
      else
        ([GenEvent.callBackend], Except.error (exhaustedMsg (apiErrorMsg e)))
    | Outcome.genError e =>
      if attempt < MAX_RETRIES - 1 then
        let rest := runAttempts backend (attempt + 1) fuel (genErrorMsg e)
        (GenEvent.callBackend :: GenEvent.sleep (INITIAL_DELAY * 2 ^ attempt) :: rest.1,
          rest.2)
      else
        ([GenEvent.callBackend], Except.error (exhaustedMsg (genErrorMsg e)))

/-- `generate_code_with_llm` from the source, as a function of the backend's
behaviour: returns the event trace (backend calls and sleeps, in order) and
either the finalized file list (`Except.ok`) or the message of the raised
exhaustion exception (`Except.error`).  `last_error_message` starts as `""`. -/
def generate_code_with_llm (backend : Nat → Outcome) :
    List GenEvent × Except String (List CodeFile) :=
  runAttempts backend 0 MAX_RETRIES ""

/-- True for the backend-call event. -/
def isCallEvent : GenEvent → Bool
  | GenEvent.callBackend => true
  | GenEvent.sleep _ => false

/-- Number of outbound backend calls recorded in a trace. -/
def countCalls (evs : List GenEvent) : Nat := (evs.filter isCallEvent).length

/-- The sleep durations recorded in a trace, in order. -/
def sleepsOf (evs : List GenEvent) : List Nat :=
  evs.filterMap (fun e => match e with
    | GenEvent.sleep d => some d
    | GenEvent.callBackend => none)

/-- The trace segment contributed by a failing attempt `n` that is followed
by a sleep: the call, then `time.sleep(INITIAL_DELAY * 2 ** n)`. -/
def failSeg (n : Nat) : List GenEvent :=
  [GenEvent.callBackend, GenEvent.sleep (INITIAL_DELAY * 2 ^ n)]

/-- Number of entries with the given name in a file list. -/
def countNamed (nm : String) (l : List CodeFile) : Nat :=
  (l.filter (fun f => f.name == nm)).length

/-! ## Webhook entry point -/

/-- `validate_secret` from the source: `return secret == os.getenv("secret")`.
The environment variable is passed explicitly as `env`; when it is unset
(`none`), Python's `getenv` yields `None`, and a `str` never equals `None`,
so the comparison is `false` for every input string. -/
def validate_secret (secret : String) (env : Option String) : Bool :=
  match env with
  | some v => secret == v
  | none => false

/-- The fields of the inbound JSON object that `handle_task` reads:
`data.get("secret", "")` and `data.get("round")`.  A missing field is
`none`; `round` is a JSON number modelled as `Int`. -/
structure TaskData where
  secret : Option String
  round : Option Int

/-- The JSON object returned by `handle_task`: either an error object
(`{"error": msg}`) or a status object (`{"message": msg}`). -/
inductive Response where
  | errorObj (msg : String)
  | messageObj (msg : String)
deriving DecidableEq

/-- `round1` from the source: calls `generate_code_with_llm` synchronously
(the repo/pages/push/notify calls are commented out in the source) and then
prints the file names; an exception from the generation loop propagates to
the caller.  Returns the backend event trace and either unit (normal return)
or the propagated exception message. -/
def round1 (backend : Nat → Outcome) : List GenEvent × Except String Unit :=
  let r := generate_code_with_llm backend
  (r.1,
    match r.2 with
    | Except.ok _files => Except.ok ()
    | Except.error e => Except.error e)

/-- `handle_task` from the source: rejects on a bad secret, dispatches on
the round number, and returns a JSON object.  The first component is the
trace of side effects performed (backend calls and sleeps of the generation
loop); `Except.error` models an exception escaping the endpoint function. -/
def handle_task (env : Option String) (backend : Nat → Outcome) (data : TaskData) :
    List GenEvent × Except String Response :=
  if !(validate_secret (data.secret.getD "") env) then
    ([], Except.ok (Response.errorObj "Invalid secret"))
  else if data.round == some 1 then
    let r := round1 backend
    (r.1,
      match r.2 with
      | Except.ok _ => Except.ok (Response.messageObj "Round 1 started")
      | Except.error e => Except.error e)
  else if data.round == some 2 then
    ([], Except.ok (Response.messageObj "Round 2 started"))
  else
    ([], Except.ok (Response.errorObj "Invalid round"))

/-! ## Publishing helper (`push_files_to_repo`) -/

/-- A file entry handed to `push_files_to_repo` (`files: list[dict]`).  The
`content` is kept as its byte sequence: for a `str` content Python encodes
`content.encode('utf-8')` before base64, for a `bytes` content it base64s
the bytes directly, so both cases are a byte list here (each entry a value
in 0..255); the empty string corresponds to the empty byte list. -/
structure PushFile where
  name : String
  content : List Nat

/-- One `requests.put` issued by the push loop: the contents-API URL, the
commit message, the base64-encoded content, and the optional `sha` field. -/
structure PushRequest where
  url : String
  message : String
  content : List Char
  sha : Option String
deriving DecidableEq

/-- The base64 alphabet used by Python's `base64.b64encode`. -/
def b64Alphabet : List Char :=
  "ABCDEFGHIJKLMNOPQRSTUVWXYZabcdefghijklmnopqrstuvwxyz0123456789+/".toList

/-- Character at a 6-bit index of the base64 alphabet. -/
def b64Char (n : Nat) : Char := b64Alphabet.getD n 'A'

/-- Standard base64 of a byte list, as `base64.b64encode` produces (with
`=` padding). -/
def b64Encode : List Nat → List Char
  | [] => []
  | [a] => [b64Char (a / 4), b64Char (a % 4 * 16), '=', '=']
  | [a, b] => [b64Char (a / 4), b64Char (a % 4 * 16 + b / 16), b64Char (b % 16 * 4), '=']
  | a :: b :: c :: rest =>
    b64Char (a / 4) :: b64Char (a % 4 * 16 + b / 16) ::
      b64Char (b % 16 * 4 + c / 64) :: b64Char (c % 64) :: b64Encode rest

/-- The `for file in files:` loop of `push_files_to_repo`.  For each entry it
base64-encodes the content, builds the payload (attaching `sha` only when
`latest_sha` is truthy, i.e. a non-empty string), skips the entry when
`not file_name or not file_content` (where `file_content` is the base64
string at that point), and otherwise issues the `requests.put`.  The emitted
requests are returned in order; responses (and the raise on a non-201
status) are external and do not affect which requests are formed. -/
def pushLoop (repoName : String) (latestSha : Option String) :
    List PushFile → List PushRequest
  | [] => []
  | f :: rest =>
    let fileContent := b64Encode f.content
    let payload : PushRequest :=
      { url := "https://api.github.com/repos/sirjanhere/" ++ repoName ++
          "/contents/" ++ f.name
        message := "Add " ++ f.name
        content := fileContent
        sha := match latestSha with
               | some s => if s == "" then none else some s
               | none => none }
    if f.name == "" || fileContent.isEmpty then
      pushLoop repoName latestSha rest
    else
      payload :: pushLoop repoName latestSha rest

/-- `push_files_to_repo` from the source: when `round == 2` it first fetches
the latest commit sha (a network call whose would-be result is the explicit
parameter `latestShaFromApi`), otherwise `latest_sha = None`; then runs the
push loop over the file list. -/
def push_files_to_repo (repoName : String) (files : List PushFile) (round : Int)
    (latestShaFromApi : String) : List PushRequest :=
  let latestSha : Option String := if round == 2 then some latestShaFromApi else none
  pushLoop repoName latestSha files

/-- The request that the push loop issues for a (non-skipped) file entry;
used to state which entries reach the publishing collaborator. -/
def mkPushRequest (repoName : String) (latestSha : Option String) (f : PushFile) :
    PushRequest :=
  { url := "https://api.github.com/repos/sirjanhere/" ++ repoName ++
      "/contents/" ++ f.name
    message := "Add " ++ f.name
    content := b64Encode f.content
    sha := match latestSha with
           | some s => if s == "" then none else some s
           | none => none }

/-! ## Concrete backend behaviours used as test inputs -/

/-- A backend that raises `APIError` on every attempt. -/
def bkFault : Nat → Outcome := fun _ => Outcome.apiError "boom"

/-- A backend whose response fails the parse/validate step on every attempt. -/
def bkBadParse : Nat → Outcome := fun _ => Outcome.badParse "e" "r"

/-- A backend that immediately returns a response parsing to an empty file
array. -/
def bkEmptyList : Nat → Outcome := fun _ => Outcome.parsed [] "r"

/-- A backend that immediately returns a response already containing a file
named `LICENSE`. -/
def bkLicense : Nat → Outcome :=
  fun _ => Outcome.parsed [{ name := "LICENSE", content := "x" }] "r"

/-- A backend that fails once with an `APIError` and then succeeds with a
one-file response. -/
def bkOnceThenOk : Nat → Outcome := fun n =>
  if n = 0 then Outcome.apiError "x"
  else Outcome.parsed [{ name := "index.html", content := "hi" }] "r"

/-- A backend with schema-validation failures on attempts 0 to 3 and a
transport fault on the final attempt. -/
def bkMixedFinalFault : Nat → Outcome := fun n =>
  if n < 4 then Outcome.badParse "e" "r" else Outcome.apiError "boom"

/-! ## Trace bookkeeping lemmas -/

/-- A backend-call event adds one to the call count. -/
theorem countCalls_cons_call (evs : List GenEvent) :
    countCalls (GenEvent.callBackend :: evs) = countCalls evs + 1 := by
  simp [countCalls, List.filter_cons, isCallEvent]

/-- A sleep event does not change the call count. -/
theorem countCalls_cons_sleep (d : Nat) (evs : List GenEvent) :
    countCalls (GenEvent.sleep d :: evs) = countCalls evs := by
  simp [countCalls, List.filter_cons, isCallEvent]

/-- A backend-call event contributes no sleep. -/
theorem sleepsOf_cons_call (evs : List GenEvent) :
    sleepsOf (GenEvent.callBackend :: evs) = sleepsOf evs := by
  simp [sleepsOf, List.filterMap_cons]

/-- A sleep event contributes its duration. -/
theorem sleepsOf_cons_sleep (d : Nat) (evs : List GenEvent) :
    sleepsOf (GenEvent.sleep d :: evs) = d :: sleepsOf evs := by
  simp [sleepsOf, List.filterMap_cons]

/-- Sleep durations of a concatenation. -/
theorem sleepsOf_append (l1 l2 : List GenEvent) :
    sleepsOf (l1 ++ l2) = sleepsOf l1 ++ sleepsOf l2 := by
  simp [sleepsOf, List.filterMap_append]

/-- Base64 output is empty exactly when the input byte list is empty (an
encoded group always produces four characters). -/
theorem b64Encode_isEmpty (bs : List Nat) : (b64Encode bs).isEmpty = bs.isEmpty := by
  match bs with
  | [] => rfl
  | [_] => rfl
  | [_, _] => rfl
  | _ :: _ :: _ :: _ => rfl

/-! ## Behaviour of the retry loop -/

/-- Exhaustion: when every remaining attempt fails, the loop performs one
backend call per remaining attempt and surfaces the exhaustion exception
carrying the error message recorded on the final attempt. -/
theorem runAttempts_allFail (backend : Nat → Outcome) :
    ∀ fuel attempt lastErr, attempt + fuel = MAX_RETRIES →
    (∀ i, attempt ≤ i → i < MAX_RETRIES → (backend i).isFailing = true) →
    (runAttempts backend attempt fuel lastErr).2
        = Except.error (exhaustedMsg
            (if fuel = 0 then lastErr else (backend (MAX_RETRIES - 1)).errMsg)) ∧
    countCalls (runAttempts backend attempt fuel lastErr).1 = fuel := by
  intro fuel
  induction fuel with
  | zero =>
    intro attempt lastErr _ _
    simp [runAttempts, countCalls, List.filter]
  | succ n ih =>
    intro attempt lastErr hfa hfail
    have hfailing : (backend attempt).isFailing = true :=
      hfail attempt (Nat.le_refl _) (by omega)
    cases hb : backend attempt with
    | parsed files raw =>
      rw [hb] at hfailing
      simp [Outcome.isFailing] at hfailing
    | badParse e raw =>
      have ihres := ih (attempt + 1) (schemaErrorMsg e raw) (by omega)
        (fun i h1 h2 => hfail i (by omega) h2)
      have hmsg :
          (if n = 0 then schemaErrorMsg e raw else (backend (MAX_RETRIES - 1)).errMsg)
            = (backend (MAX_RETRIES - 1)).errMsg := by
        rcases Nat.eq_zero_or_pos n with hn | hn
        · have h4 : MAX_RETRIES - 1 = attempt := by
            simp [MAX_RETRIES] at hfa ⊢; omega
          rw [if_pos hn, h4, hb, Outcome.errMsg]
        · rw [if_neg (by omega)]
      constructor
      · simp only [runAttempts, hb]
        rw [ihres.1, hmsg]
        simp
      · simp only [runAttempts, hb]
        rw [countCalls_cons_call, countCalls_cons_sleep, ihres.2]
    | apiError e =>
      rcases Nat.eq_zero_or_pos n with hn | hn
      · have h4 : attempt = MAX_RETRIES - 1 := by omega
        have hnotlt : ¬ attempt < MAX_RETRIES - 1 := by omega
        constructor
        · simp only [runAttempts, hb, if_neg hnotlt]
          rw [if_neg (by omega), ← h4, hb]
          rfl
        · simp only [runAttempts, hb, if_neg hnotlt]
          rw [countCalls_cons_call]
          simp [countCalls, List.filter]
          omega
      · have hlt : attempt < MAX_RETRIES - 1 := by omega
        have ihres := ih (attempt + 1) (apiErrorMsg e) (by omega)
          (fun i h1 h2 => hfail i (by omega) h2)
        constructor
        · simp only [runAttempts, hb, if_pos hlt]
          rw [ihres.1, if_neg (by omega), if_neg (by omega)]
        · simp only [runAttempts, hb, if_pos hlt]
          rw [countCalls_cons_call, countCalls_cons_sleep, ihres.2]
    | genError e =>
      rcases Nat.eq_zero_or_pos n with hn | hn
      · have h4 : attempt = MAX_RETRIES - 1 := by omega
        have hnotlt : ¬ attempt < MAX_RETRIES - 1 := by omega
        constructor
        · simp only [runAttempts, hb, if_neg hnotlt]
          rw [if_neg (by omega), ← h4, hb]
          rfl
        · simp only [runAttempts, hb, if_neg hnotlt]
          rw [countCalls_cons_call]
          simp [countCalls, List.filter]
          omega
      · have hlt : attempt < MAX_RETRIES - 1 := by omega
        have ihres := ih (attempt + 1) (genErrorMsg e) (by omega)
          (fun i h1 h2 => hfail i (by omega) h2)
        constructor
        · simp only [runAttempts, hb, if_pos hlt]
          rw [ihres.1, if_neg (by omega), if_neg (by omega)]
        · simp only [runAttempts, hb, if_pos hlt]
          rw [countCalls_cons_call, countCalls_cons_sleep, ihres.2]

/-- C1: when every one of the five permitted attempts either raises a
transport/backend fault or fails schema validation, `generate_code_with_llm`
makes exactly `MAX_RETRIES` (5) backend calls — never more, never fewer —
and then raises the exhaustion exception carrying the last recorded error
message (the message of attempt 4's failure); the returned `Except` is the
only error surfaced, so no intermediate failure reaches the caller. -/
theorem claim_C1_bounded_attempts (backend : Nat → Outcome)
    (hfail : ∀ n, n < MAX_RETRIES → (backend n).isFailing = true) :
    countCalls (generate_code_with_llm backend).1 = MAX_RETRIES ∧
    (generate_code_with_llm backend).2
      = Except.error (exhaustedMsg ((backend (MAX_RETRIES - 1)).errMsg)) := by
  have h := runAttempts_allFail backend MAX_RETRIES 0 "" (by omega)
    (fun i h1 h2 => hfail i h2)
  refine ⟨h.2, ?_⟩
  rw [generate_code_with_llm, h.1, if_neg (by simp [MAX_RETRIES])]

/-- Witness for C1: a backend that raises an `APIError` on every attempt
exhausts after exactly five calls with the corresponding message. -/
theorem claim_C1_bounded_attempts_witness :
    countCalls (generate_code_with_llm bkFault).1 = 5 ∧
    (generate_code_with_llm bkFault).2
      = Except.error (exhaustedMsg (apiErrorMsg "boom")) :=
  claim_C1_bounded_attempts bkFault (fun _ _ => rfl)

/-- Success: when the attempts before `k` all fail and attempt `k` succeeds,
the loop performs exactly the calls for attempts `attempt..k`, returns the
parsed files with the license entry appended, and the trace ends with the
successful backend call (so no sleep follows it). -/
theorem runAttempts_success (backend : Nat → Outcome) :
    ∀ fuel attempt lastErr k fs raw, attempt + fuel = MAX_RETRIES →
    attempt ≤ k → k < MAX_RETRIES →
    (∀ i, attempt ≤ i → i < k → (backend i).isFailing = true) →
    backend k = Outcome.parsed fs raw →
    (runAttempts backend attempt fuel lastErr).2 = Except.ok (fs ++ [licenseFile]) ∧
    countCalls (runAttempts backend attempt fuel lastErr).1 = k - attempt + 1 ∧
    ∃ pre, (runAttempts backend attempt fuel lastErr).1 = pre ++ [GenEvent.callBackend] := by
  intro fuel
  induction fuel with
  | zero =>
    intro attempt lastErr k fs raw hfa hk hk5 _ _
    omega
  | succ n ih =>
    intro attempt lastErr k fs raw hfa hk hk5 hfail hs
    rcases Nat.eq_or_lt_of_le hk with heq | hlt
    · subst heq
      constructor
      · simp only [runAttempts, hs]
      constructor
      · simp only [runAttempts, hs]
        simp [countCalls, List.filter, isCallEvent]
      · exact ⟨[], by simp [runAttempts, hs]⟩
    · have hfailing : (backend attempt).isFailing = true :=
        hfail attempt (Nat.le_refl _) hlt
      have hlt4 : attempt < MAX_RETRIES - 1 := by omega
      cases hb : backend attempt with
      | parsed files raw2 =>
        rw [hb] at hfailing
        simp [Outcome.isFailing] at hfailing
      | badParse e raw2 =>
        have ihres := ih (attempt + 1) (schemaErrorMsg e raw2) k fs raw (by omega)
          (by omega) hk5 (fun i h1 h2 => hfail i (by omega) h2) hs
        refine ⟨?_, ?_, ?_⟩
        · simp only [runAttempts, hb]
          exact ihres.1
        · simp only [runAttempts, hb]
          rw [countCalls_cons_call, countCalls_cons_sleep, ihres.2.1]
          omega
        · obtain ⟨pre, hpre⟩ := ihres.2.2
          refine ⟨GenEvent.callBackend ::
            GenEvent.sleep (INITIAL_DELAY * 2 ^ attempt) :: pre, ?_⟩
          simp only [runAttempts, hb]
          rw [hpre]
          simp
      | apiError e =>
        have ihres := ih (attempt + 1) (apiErrorMsg e) k fs raw (by omega)
          (by omega) hk5 (fun i h1 h2 => hfail i (by omega) h2) hs
        refine ⟨?_, ?_, ?_⟩
        · simp only [runAttempts, hb, if_pos hlt4]
          exact ihres.1
        · simp only [runAttempts, hb, if_pos hlt4]
          rw [countCalls_cons_call, countCalls_cons_sleep, ihres.2.1]
          omega
        · obtain ⟨pre, hpre⟩ := ihres.2.2
          refine ⟨GenEvent.callBackend ::
            GenEvent.sleep (INITIAL_DELAY * 2 ^ attempt) :: pre, ?_⟩
          simp only [runAttempts, hb, if_pos hlt4]
          rw [hpre]
          simp
      | genError e =>
        have ihres := ih (attempt + 1) (genErrorMsg e) k fs raw (by omega)
          (by omega) hk5 (fun i h1 h2 => hfail i (by omega) h2) hs
        refine ⟨?_, ?_, ?_⟩
        · simp only [runAttempts, hb, if_pos hlt4]
          exact ihres.1
        · simp only [runAttempts, hb, if_pos hlt4]
          rw [countCalls_cons_call, countCalls_cons_sleep, ihres.2.1]
          omega
        · obtain ⟨pre, hpre⟩ := ihres.2.2
          refine ⟨GenEvent.callBackend ::
            GenEvent.sleep (INITIAL_DELAY * 2 ^ attempt) :: pre, ?_⟩
          simp only [runAttempts, hb, if_pos hlt4]
          rw [hpre]
          simp

/-- C2: if the first `k` backend attempts fail (fault or schema-invalid) and
attempt `k` (0-indexed, `k < MAX_RETRIES`) succeeds with a schema-valid
response, then `generate_code_with_llm` makes exactly `k + 1` backend calls,
returns the finalized file set (the parsed files with the license entry
appended), and the trace ends with the successful call, so no sleep is
performed after the successful attempt. -/
theorem claim_C2_success_short_circuits (backend : Nat → Outcome)
    (k : Nat) (fs : List CodeFile) (raw : String)
    (hk : k < MAX_RETRIES)
    (hfail : ∀ i, i < k → (backend i).isFailing = true)
    (hs : backend k = Outcome.parsed fs raw) :
    countCalls (generate_code_with_llm backend).1 = k + 1 ∧
    (generate_code_with_llm backend).2 = Except.ok (fs ++ [licenseFile]) ∧
    ∃ pre, (generate_code_with_llm backend).1 = pre ++ [GenEvent.callBackend] := by
  have h := runAttempts_success backend MAX_RETRIES 0 "" k fs raw (by omega)
    (Nat.zero_le _) hk (fun i _ h2 => hfail i h2) hs
  exact ⟨by rw [generate_code_with_llm, h.2.1]; omega, h.1, h.2.2⟩

/-- Witness for C2: a backend that raises once and then succeeds leads to
exactly two calls, the one-file result plus the license entry, and a trace
ending with the successful call. -/
theorem claim_C2_success_short_circuits_witness :
    countCalls (generate_code_with_llm bkOnceThenOk).1 = 2 ∧
    (generate_code_with_llm bkOnceThenOk).2
      = Except.ok ([{ name := "index.html", content := "hi" }] ++ [licenseFile]) ∧
    ∃ pre, (generate_code_with_llm bkOnceThenOk).1 = pre ++ [GenEvent.callBackend] :=
  claim_C2_success_short_circuits bkOnceThenOk 1
    [{ name := "index.html", content := "hi" }] "r" (by decide)
    (fun i hi => by
      have h0 : i = 0 := by omega
      subst h0
      rfl)
    rfl

/-- Converse of the success lemma: if the loop returns `Except.ok`, there is
a first successful attempt `k`, the attempts before it all failed, and the
returned list is that attempt's parsed files with the license appended. -/
theorem runAttempts_ok (backend : Nat → Outcome) :
    ∀ fuel attempt lastErr files, attempt + fuel = MAX_RETRIES →
    (runAttempts backend attempt fuel lastErr).2 = Except.ok files →
    ∃ k fs raw, attempt ≤ k ∧ k < MAX_RETRIES ∧
      (∀ i, attempt ≤ i → i < k → (backend i).isFailing = true) ∧
      backend k = Outcome.parsed fs raw ∧ files = fs ++ [licenseFile] := by
  intro fuel
  induction fuel with
  | zero =>
    intro attempt lastErr files _ h
    simp [runAttempts] at h
  | succ n ih =>
    intro attempt lastErr files hfa h
    cases hb : backend attempt with
    | parsed fs raw =>
      refine ⟨attempt, fs, raw, Nat.le_refl _, by omega, fun i h1 h2 => by omega, hb, ?_⟩
      simp only [runAttempts, hb] at h
      exact (Except.ok.inj h).symm
    | badParse e raw =>
      simp only [runAttempts, hb] at h
      obtain ⟨k, fs, raw2, hk1, hk2, hkfail, hks, hkeq⟩ :=
        ih (attempt + 1) (schemaErrorMsg e raw) files (by omega) h
      refine ⟨k, fs, raw2, by omega, hk2, ?_, hks, hkeq⟩
      intro i h1 h2
      rcases Nat.eq_or_lt_of_le h1 with heq | hlt
      · rw [← heq, hb]; rfl
      · exact hkfail i hlt h2
    | apiError e =>
      by_cases hlt4 : attempt < MAX_RETRIES - 1
      · simp only [runAttempts, hb, if_pos hlt4] at h
        obtain ⟨k, fs, raw2, hk1, hk2, hkfail, hks, hkeq⟩ :=
          ih (attempt + 1) (apiErrorMsg e) files (by omega) h
        refine ⟨k, fs, raw2, by omega, hk2, ?_, hks, hkeq⟩
        intro i h1 h2
        rcases Nat.eq_or_lt_of_le h1 with heq | hlt
        · rw [← heq, hb]; rfl
        · exact hkfail i hlt h2
      · simp [runAttempts, hb, if_neg hlt4] at h
    | genError e =>
      by_cases hlt4 : attempt < MAX_RETRIES - 1
      · simp only [runAttempts, hb, if_pos hlt4] at h
        obtain ⟨k, fs, raw2, hk1, hk2, hkfail, hks, hkeq⟩ :=
          ih (attempt + 1) (genErrorMsg e) files (by omega) h
        refine ⟨k, fs, raw2, by omega, hk2, ?_, hks, hkeq⟩
        intro i h1 h2
        rcases Nat.eq_or_lt_of_le h1 with heq | hlt
        · rw [← heq, hb]; rfl
        · exact hkfail i hlt h2
      · simp [runAttempts, hb, if_neg hlt4] at h

/-- C5 counterexample: the claim says a response parsing to an *empty* array
is treated as a retryable schema-validation failure, but the code performs
no such check — a backend whose response parses to the empty file array
succeeds on the first attempt (one call, no retry), returning just the
license entry. -/
theorem claim_C5_counterexample :
    (generate_code_with_llm bkEmptyList).2 = Except.ok [licenseFile] ∧
    countCalls (generate_code_with_llm bkEmptyList).1 = 1 ∧
    (generate_code_with_llm bkEmptyList).1 = [GenEvent.callBackend] :=
  ⟨rfl, rfl, rfl⟩

/-- C5 (amended): an attempt transitions to success exactly when the backend
call completes without a transport/backend fault and its response parses
into the declared array-of-`{name, content}` schema; no emptiness check is
performed, so the parsed array may be empty and entries may have empty names
or contents, and any such response is accepted (the only retryable
conditions are faults and parse failures). -/
theorem claim_C5_success_condition (backend : Nat → Outcome) (files : List CodeFile) :
    (generate_code_with_llm backend).2 = Except.ok files ↔
    ∃ k fs raw, k < MAX_RETRIES ∧
      (∀ i, i < k → (backend i).isFailing = true) ∧
      backend k = Outcome.parsed fs raw ∧ files = fs ++ [licenseFile] := by
  constructor
  · intro h
    obtain ⟨k, fs, raw, _, hk2, hkfail, hks, hkeq⟩ :=
      runAttempts_ok backend MAX_RETRIES 0 "" files (by omega) h
    exact ⟨k, fs, raw, hk2, fun i h2 => hkfail i (Nat.zero_le _) h2, hks, hkeq⟩
  · rintro ⟨k, fs, raw, hk2, hkfail, hks, rfl⟩
    exact (runAttempts_success backend MAX_RETRIES 0 "" k fs raw (by omega)
      (Nat.zero_le _) hk2 (fun i _ h2 => hkfail i h2) hks).1

/-- C6 counterexample: when the backend's own output already contains a file
named `LICENSE`, the success path still appends the fixed license entry, so
the returned file set has *two* entries with that name, not exactly one as
the claim states. -/
theorem claim_C6_counterexample :
    (generate_code_with_llm bkLicense).2
      = Except.ok [{ name := "LICENSE", content := "x" }, licenseFile] ∧
    countNamed "LICENSE" [{ name := "LICENSE", content := "x" }, licenseFile] = 2 := by
  refine ⟨rfl, ?_⟩
  simp [countNamed, licenseFile, List.filter]

/-- C6 (amended): on every successful invocation the fixed license entry
(named `LICENSE`, content `MIT_LICENSE_TEXT`) is appended exactly once, as
the last element, only on the success path (never during retries, and an
exhausted invocation returns no file set at all); consequently the number of
entries named `LICENSE` in the result is one more than in the backend's own
output — exactly one only when the backend supplied none. -/
theorem claim_C6_license_appended (backend : Nat → Outcome) (files : List CodeFile)
    (h : (generate_code_with_llm backend).2 = Except.ok files) :
    ∃ k fs raw, k < MAX_RETRIES ∧ backend k = Outcome.parsed fs raw ∧
      files = fs ++ [licenseFile] ∧
      licenseFile.name = "LICENSE" ∧ licenseFile.content = MIT_LICENSE_TEXT ∧
      countNamed "LICENSE" files = countNamed "LICENSE" fs + 1 := by
  obtain ⟨k, fs, raw, _, hk2, _, hks, hkeq⟩ :=
    runAttempts_ok backend MAX_RETRIES 0 "" files (by omega) h
  refine ⟨k, fs, raw, hk2, hks, hkeq, rfl, rfl, ?_⟩
  rw [hkeq]
  simp [countNamed, List.filter_append, licenseFile, List.filter]

/-- Witness for C6 (amended): applied to a backend whose response parses to
the empty array, so the result is exactly the license entry. -/
theorem claim_C6_license_appended_witness :
    ∃ k fs raw, k < MAX_RETRIES ∧ bkEmptyList k = Outcome.parsed fs raw ∧
      ([licenseFile] : List CodeFile) = fs ++ [licenseFile] ∧
      licenseFile.name = "LICENSE" ∧ licenseFile.content = MIT_LICENSE_TEXT ∧
      countNamed "LICENSE" [licenseFile] = countNamed "LICENSE" fs + 1 :=
  claim_C6_license_appended bkEmptyList [licenseFile] rfl

/-- Shape of the trace: some number `m` of failing attempts each contribute
their call followed by the sleep `INITIAL_DELAY * 2 ^ n` for their index
`n`, and the trace ends either with nothing more (exhaustion whose final
failure was a schema failure, which sleeps) or with one further call (a
success, or a final-attempt fault, neither of which sleeps). -/
theorem runAttempts_shape (backend : Nat → Outcome) :
    ∀ fuel attempt lastErr,
    ∃ m tail, m ≤ fuel ∧ (tail = [] ∨ tail = [GenEvent.callBackend]) ∧
      (runAttempts backend attempt fuel lastErr).1
        = (List.range' attempt m).flatMap failSeg ++ tail := by
  intro fuel
  induction fuel with
  | zero =>
    intro attempt lastErr
    exact ⟨0, [], Nat.le_refl _, Or.inl rfl, by simp [runAttempts]⟩
  | succ n ih =>
    intro attempt lastErr
    have step :
        ∀ rest : List GenEvent,
        (∃ m tail, m ≤ n ∧ (tail = [] ∨ tail = [GenEvent.callBackend]) ∧
          rest = (List.range' (attempt + 1) m).flatMap failSeg ++ tail) →
        ∃ m tail, m ≤ n + 1 ∧ (tail = [] ∨ tail = [GenEvent.callBackend]) ∧
          GenEvent.callBackend :: GenEvent.sleep (INITIAL_DELAY * 2 ^ attempt) :: rest
            = (List.range' attempt m).flatMap failSeg ++ tail := by
      rintro rest ⟨m, tail, hm, htail, hrest⟩
      refine ⟨m + 1, tail, by omega, htail, ?_⟩
      rw [hrest, List.range'_succ]
      simp [failSeg]
    cases hb : backend attempt with
    | parsed fs raw =>
      refine ⟨0, [GenEvent.callBackend], Nat.zero_le _, Or.inr rfl, ?_⟩
      simp [runAttempts, hb]
    | badParse e raw =>
      have h := step (runAttempts backend (attempt + 1) n (schemaErrorMsg e raw)).1
        (ih (attempt + 1) (schemaErrorMsg e raw))
      obtain ⟨m, tail, hm, htail, heq⟩ := h
      exact ⟨m, tail, hm, htail, by simp only [runAttempts, hb]; exact heq⟩
    | apiError e =>
      by_cases hlt4 : attempt < MAX_RETRIES - 1
      · have h := step (runAttempts backend (attempt + 1) n (apiErrorMsg e)).1
          (ih (attempt + 1) (apiErrorMsg e))
        obtain ⟨m, tail, hm, htail, heq⟩ := h
        exact ⟨m, tail, hm, htail, by simp only [runAttempts, hb, if_pos hlt4]; exact heq⟩
      · refine ⟨0, [GenEvent.callBackend], Nat.zero_le _, Or.inr rfl, ?_⟩
        simp [runAttempts, hb, if_neg hlt4]
    | genError e =>
      by_cases hlt4 : attempt < MAX_RETRIES - 1
      · have h := step (runAttempts backend (attempt + 1) n (genErrorMsg e)).1
          (ih (attempt + 1) (genErrorMsg e))
        obtain ⟨m, tail, hm, htail, heq⟩ := h
        exact ⟨m, tail, hm, htail, by simp only [runAttempts, hb, if_pos hlt4]; exact heq⟩
      · refine ⟨0, [GenEvent.callBackend], Nat.zero_le _, Or.inr rfl, ?_⟩
        simp [runAttempts, hb, if_neg hlt4]

/-- Sleep durations extracted from a block of failing-attempt segments. -/
theorem sleepsOf_bind_failSeg (js : List Nat) :
    sleepsOf (js.flatMap failSeg) = js.map (fun n => INITIAL_DELAY * 2 ^ n) := by
  induction js with
  | nil => rfl
  | cons j rest ih =>
    simp only [List.flatMap_cons, List.map_cons, failSeg]
    rw [sleepsOf_append, ih]
    rfl

/-- The sleeps of a full invocation are exactly the backoff delays
`INITIAL_DELAY * 2 ^ n` for the consecutive attempt indices `n = 0, 1, ...`
of the failing attempts that slept, in order. -/
theorem generate_sleeps_shape (backend : Nat → Outcome) :
    ∃ m, m ≤ MAX_RETRIES ∧
      sleepsOf (generate_code_with_llm backend).1
        = (List.range m).map (fun n => INITIAL_DELAY * 2 ^ n) := by
  obtain ⟨m, tail, hm, htail, heq⟩ := runAttempts_shape backend MAX_RETRIES 0 ""
  refine ⟨m, hm, ?_⟩
  rw [generate_code_with_llm, heq, sleepsOf_append, sleepsOf_bind_failSeg]
  have htail0 : sleepsOf tail = [] := by
    rcases htail with h | h <;> rw [h] <;> rfl
  rw [htail0, List.append_nil, List.range_eq_range']

/-- C3: whenever attempt `n` fails and another attempt follows, the sleep
performed before attempt `n + 1` is `INITIAL_DELAY * 2 ^ n` — the sleeps of
any invocation are exactly the delays 4, 8, 16, ... for the consecutive
attempt indices, in order — and these delays strictly increase with `n`
(4, 8, 16, 32, 64 for `n = 0..4`). -/
theorem claim_C3_backoff_monotonicity (backend : Nat → Outcome) :
    (∃ m, m ≤ MAX_RETRIES ∧
      sleepsOf (generate_code_with_llm backend).1
        = (List.range m).map (fun n => INITIAL_DELAY * 2 ^ n)) ∧
    (∀ n : Nat, INITIAL_DELAY * 2 ^ n < INITIAL_DELAY * 2 ^ (n + 1)) ∧
    (List.range MAX_RETRIES).map (fun n => INITIAL_DELAY * 2 ^ n)
      = [4, 8, 16, 32, 64] := by
  refine ⟨generate_sleeps_shape backend, ?_, by decide⟩
  intro n
  have h2 : 0 < 2 ^ n := pow_pos (by omega : (0:Nat) < 2) n
  have h4 : INITIAL_DELAY = 4 := rfl
  rw [pow_succ, h4]
  omega

/-- End-of-trace behaviour of an exhausting run, regardless of the kinds of
the earlier failures: when every remaining attempt fails, the trace ends
with the final backend call and no sleep when the final attempt's failure is
a transport/backend fault (the fault handlers break without sleeping), and
with the final call followed by the sleep `INITIAL_DELAY * 2 ^ 4` when the
final attempt's failure is a schema-validation failure (that handler sleeps
unconditionally). -/
theorem runAttempts_allFail_end (backend : Nat → Outcome) :
    ∀ fuel attempt lastErr, attempt + fuel = MAX_RETRIES → 1 ≤ fuel →
    (∀ i, attempt ≤ i → i < MAX_RETRIES → (backend i).isFailing = true) →
    ((backend (MAX_RETRIES - 1)).isFault = true →
      ∃ pre, (runAttempts backend attempt fuel lastErr).1
        = pre ++ [GenEvent.callBackend]) ∧
    ((backend (MAX_RETRIES - 1)).isFault = false →
      ∃ pre, (runAttempts backend attempt fuel lastErr).1
        = pre ++ [GenEvent.callBackend,
                  GenEvent.sleep (INITIAL_DELAY * 2 ^ (MAX_RETRIES - 1))]) := by
  intro fuel
  induction fuel with
  | zero => intro attempt lastErr _ h1 _; omega
  | succ n ih =>
    intro attempt lastErr hfa _ hfail
    have hfailing : (backend attempt).isFailing = true :=
      hfail attempt (Nat.le_refl _) (by omega)
    rcases Nat.eq_zero_or_pos n with hn | hn
    · have h4 : attempt = MAX_RETRIES - 1 := by omega
      subst hn
      cases hb : backend attempt with
      | parsed fs raw =>
        rw [hb] at hfailing
        simp [Outcome.isFailing] at hfailing
      | badParse e raw =>
        constructor
        · intro hf
          rw [← h4, hb] at hf
          simp [Outcome.isFault] at hf
        · intro _
          refine ⟨[], ?_⟩
          simp only [runAttempts, hb]
          rw [h4]
          simp [runAttempts]
      | apiError e =>
        have hnotlt : ¬ attempt < MAX_RETRIES - 1 := by omega
        constructor
        · intro _
          exact ⟨[], by simp [runAttempts, hb, if_neg hnotlt]⟩
        · intro hf
          rw [← h4, hb] at hf
          simp [Outcome.isFault] at hf
      | genError e =>
        have hnotlt : ¬ attempt < MAX_RETRIES - 1 := by omega
        constructor
        · intro _
          exact ⟨[], by simp [runAttempts, hb, if_neg hnotlt]⟩
        · intro hf
          rw [← h4, hb] at hf
          simp [Outcome.isFault] at hf
    · have hlt4 : attempt < MAX_RETRIES - 1 := by omega
      have hext : ∀ i, attempt + 1 ≤ i → i < MAX_RETRIES → (backend i).isFailing = true :=
        fun i h1 h2 => hfail i (by omega) h2
      cases hb : backend attempt with
      | parsed fs raw =>
        rw [hb] at hfailing
        simp [Outcome.isFailing] at hfailing
      | badParse e raw =>
        have hi := ih (attempt + 1) (schemaErrorMsg e raw) (by omega) (by omega) hext
        constructor
        · intro hf
          obtain ⟨pre, hpre⟩ := hi.1 hf
          refine ⟨GenEvent.callBackend ::
            GenEvent.sleep (INITIAL_DELAY * 2 ^ attempt) :: pre, ?_⟩
          simp only [runAttempts, hb]
          rw [hpre]
          simp
        · intro hf
          obtain ⟨pre, hpre⟩ := hi.2 hf
          refine ⟨GenEvent.callBackend ::
            GenEvent.sleep (INITIAL_DELAY * 2 ^ attempt) :: pre, ?_⟩
          simp only [runAttempts, hb]
          rw [hpre]
          simp
      | apiError e =>
        have hi := ih (attempt + 1) (apiErrorMsg e) (by omega) (by omega) hext
        constructor
        · intro hf
          obtain ⟨pre, hpre⟩ := hi.1 hf
          refine ⟨GenEvent.callBackend ::
            GenEvent.sleep (INITIAL_DELAY * 2 ^ attempt) :: pre, ?_⟩
          simp only [runAttempts, hb, if_pos hlt4]
          rw [hpre]
          simp
        · intro hf
          obtain ⟨pre, hpre⟩ := hi.2 hf
          refine ⟨GenEvent.callBackend ::
            GenEvent.sleep (INITIAL_DELAY * 2 ^ attempt) :: pre, ?_⟩
          simp only [runAttempts, hb, if_pos hlt4]
          rw [hpre]
          simp
      | genError e =>
        have hi := ih (attempt + 1) (genErrorMsg e) (by omega) (by omega) hext
        constructor
        · intro hf
          obtain ⟨pre, hpre⟩ := hi.1 hf
          refine ⟨GenEvent.callBackend ::
            GenEvent.sleep (INITIAL_DELAY * 2 ^ attempt) :: pre, ?_⟩
          simp only [runAttempts, hb, if_pos hlt4]
          rw [hpre]
          simp
        · intro hf
          obtain ⟨pre, hpre⟩ := hi.2 hf
          refine ⟨GenEvent.callBackend ::
            GenEvent.sleep (INITIAL_DELAY * 2 ^ attempt) :: pre, ?_⟩
          simp only [runAttempts, hb, if_pos hlt4]
          rw [hpre]
          simp

/-- C4 counterexample: the claim says no sleep is performed after the final
permitted attempt regardless of the kind of failure, bounding total sleep by
60 time units over at most 4 waits.  But the schema-validation failure path
sleeps unconditionally — with a schema-invalid response on every attempt the
trace ends with a fifth sleep, of 64 units, after the final call, and the
total sleep time is 124 units over 5 waits. -/
theorem claim_C4_counterexample :
    (generate_code_with_llm bkBadParse).1
      = [GenEvent.callBackend, GenEvent.sleep 4,
         GenEvent.callBackend, GenEvent.sleep 8,
         GenEvent.callBackend, GenEvent.sleep 16,
         GenEvent.callBackend, GenEvent.sleep 32,
         GenEvent.callBackend, GenEvent.sleep 64] ∧
    sleepsOf (generate_code_with_llm bkBadParse).1 = [4, 8, 16, 32, 64] ∧
    (sleepsOf (generate_code_with_llm bkBadParse).1).sum = 124 :=
  ⟨rfl, rfl, rfl⟩

/-- C4 (amended): for every sequence of backend outcomes in which each of
the five attempts fails — whatever mix of transport/backend faults and
schema-validation failures the earlier attempts show — no sleep follows the
final permitted attempt when that attempt fails with a transport/backend
fault (the trace ends with the final call), while a sleep of
`INITIAL_DELAY * 2 ^ 4 = 64` units does follow the final attempt when it
fails schema validation; hence the total sleep time of any invocation is at
most 124 time units, spread over at most 5 waits. -/
theorem claim_C4_no_final_sleep_on_fault (backend : Nat → Outcome) :
    (sleepsOf (generate_code_with_llm backend).1).sum ≤ 124 ∧
    (sleepsOf (generate_code_with_llm backend).1).length ≤ MAX_RETRIES ∧
    ((∀ n, n < MAX_RETRIES → (backend n).isFailing = true) →
      ((backend (MAX_RETRIES - 1)).isFault = true →
        ∃ pre, (generate_code_with_llm backend).1
          = pre ++ [GenEvent.callBackend]) ∧
      ((backend (MAX_RETRIES - 1)).isFault = false →
        ∃ pre, (generate_code_with_llm backend).1
          = pre ++ [GenEvent.callBackend,
                    GenEvent.sleep (INITIAL_DELAY * 2 ^ (MAX_RETRIES - 1))])) := by
  obtain ⟨m, hm, hsleeps⟩ := generate_sleeps_shape backend
  refine ⟨?_, ?_, ?_⟩
  · rw [hsleeps]
    have hm5 : m ≤ 5 := hm
    interval_cases m <;> decide
  · rw [hsleeps, List.length_map, List.length_range]
    exact hm
  · intro hfail
    exact runAttempts_allFail_end backend MAX_RETRIES 0 "" (by omega) (by decide)
      (fun i _ h2 => hfail i h2)

/-- Witness for C4 (amended): with schema failures on attempts 0 to 3 and a
fault on the final attempt the trace ends with the final backend call and no
sleep after it, while with schema failures on every attempt the trace ends
with the final call followed by the 64-unit sleep; the total-sleep bound is
instantiated on the first backend. -/
theorem claim_C4_no_final_sleep_on_fault_witness :
    (sleepsOf (generate_code_with_llm bkMixedFinalFault).1).sum ≤ 124 ∧
    (∃ pre, (generate_code_with_llm bkMixedFinalFault).1
      = pre ++ [GenEvent.callBackend]) ∧
    (∃ pre, (generate_code_with_llm bkBadParse).1
      = pre ++ [GenEvent.callBackend,
                GenEvent.sleep (INITIAL_DELAY * 2 ^ (MAX_RETRIES - 1))]) :=
  ⟨(claim_C4_no_final_sleep_on_fault bkMixedFinalFault).1,
   ((claim_C4_no_final_sleep_on_fault bkMixedFinalFault).2.2
      (fun n _ => by unfold bkMixedFinalFault; split <;> rfl)).1 rfl,
   ((claim_C4_no_final_sleep_on_fault bkBadParse).2.2 (fun _ _ => rfl)).2 rfl⟩

/-! ## Webhook claims -/

/-- C7: a request whose secret does not match the configured secret is
rejected before any side effect occurs — the trace is empty (no generation,
publishing or notification) and the error object `{"error": "Invalid
secret"}` is returned rather than an exception raised; likewise, with a
valid secret, a round other than 1 or 2 yields the error object
`{"error": "Invalid round"}` with no side effect and no exception. -/
theorem claim_C7_secret_and_round (env : Option String) (backend : Nat → Outcome)
    (data : TaskData) :
    (validate_secret (data.secret.getD "") env = false →
      handle_task env backend data
        = ([], Except.ok (Response.errorObj "Invalid secret"))) ∧
    (validate_secret (data.secret.getD "") env = true →
      data.round ≠ some 1 → data.round ≠ some 2 →
      handle_task env backend data
        = ([], Except.ok (Response.errorObj "Invalid round"))) := by
  constructor
  · intro h
    simp [handle_task, h]
  · intro h h1 h2
    simp [handle_task, h, h1, h2]

/-- Witness for C7: a request against an unset secret is rejected, and a
round-3 request with the right secret gets the invalid-round error object. -/
theorem claim_C7_secret_and_round_witness :
    handle_task none bkFault { secret := some "w", round := some 1 }
      = ([], Except.ok (Response.errorObj "Invalid secret")) ∧
    handle_task (some "s") bkFault { secret := some "s", round := some 3 }
      = ([], Except.ok (Response.errorObj "Invalid round")) :=
  ⟨(claim_C7_secret_and_round none bkFault _).1 rfl,
   (claim_C7_secret_and_round (some "s") bkFault _).2 rfl (by decide) (by decide)⟩

/-- C8 counterexample: the claim says a round-1 request with a valid secret
is always answered with the acknowledgment even when generation fails, but
`round1` invokes the generation loop synchronously and `handle_task` has no
exception handler: when the retry loop exhausts (here: a fault on every
attempt), the exhaustion exception propagates out of `handle_task` instead
of the acknowledgment being returned. -/
theorem claim_C8_counterexample :
    (handle_task (some "s") bkFault { secret := some "s", round := some 1 }).2
      = Except.error (exhaustedMsg (apiErrorMsg "boom")) := rfl

/-- C8 (amended): for a round-1 request with a valid secret, `handle_task`
returns the acknowledgment `{"message": "Round 1 started"}` exactly when the
generation loop succeeds; when the loop exhausts, its exception propagates
unhandled out of `handle_task` (generation is synchronous, not
fire-and-forget, relative to the HTTP response). -/
theorem claim_C8_ack_only_on_success (env : Option String) (backend : Nat → Outcome)
    (data : TaskData)
    (hsec : validate_secret (data.secret.getD "") env = true)
    (hround : data.round = some 1) :
    (∀ files, (generate_code_with_llm backend).2 = Except.ok files →
      handle_task env backend data
        = ((generate_code_with_llm backend).1,
           Except.ok (Response.messageObj "Round 1 started"))) ∧
    (∀ e, (generate_code_with_llm backend).2 = Except.error e →
      handle_task env backend data
        = ((generate_code_with_llm backend).1, Except.error e)) := by
  constructor
  · intro files hok
    simp [handle_task, round1, hsec, hround, hok]
  · intro e herr
    simp [handle_task, round1, hsec, hround, herr]

/-- Witness for C8 (amended): with a backend that succeeds immediately, the
acknowledgment is returned; the hypotheses are discharged at concrete
values. -/
theorem claim_C8_ack_only_on_success_witness :
    handle_task (some "s") bkEmptyList { secret := some "s", round := some 1 }
      = ((generate_code_with_llm bkEmptyList).1,
         Except.ok (Response.messageObj "Round 1 started")) :=
  (claim_C8_ack_only_on_success (some "s") bkEmptyList
    { secret := some "s", round := some 1 } rfl rfl).1 [licenseFile] rfl

/-- C10: when the `secret` environment variable is unset, `validate_secret`
compares against `None` and therefore returns `False` for every input
string, so every request to `handle_task` — whatever secret it carries and
whatever its round — is rejected with the invalid-secret error object. -/
theorem claim_C10_unset_secret (s : String) (backend : Nat → Outcome)
    (data : TaskData) :
    validate_secret s none = false ∧
    handle_task none backend data
      = ([], Except.ok (Response.errorObj "Invalid secret")) :=
  ⟨rfl, rfl⟩

/-! ## Publishing claim -/

/-- Unfolding equation for the push loop on the empty list. -/
theorem pushLoop_nil (repoName : String) (latestSha : Option String) :
    pushLoop repoName latestSha [] = [] := rfl

/-- Unfolding equation for the push loop on a cons cell: the entry is
skipped exactly when its name or its base64-encoded content is empty,
otherwise its push request is issued. -/
theorem pushLoop_cons (repoName : String) (latestSha : Option String)
    (f : PushFile) (rest : List PushFile) :
    pushLoop repoName latestSha (f :: rest)
      = if f.name == "" || (b64Encode f.content).isEmpty then
          pushLoop repoName latestSha rest
        else
          mkPushRequest repoName latestSha f :: pushLoop repoName latestSha rest := rfl

/-- C9: the requests issued by `push_files_to_repo` are exactly those for
the entries with a non-empty name and non-empty content — every entry whose
name or content is empty is silently dropped at publish time (its base64
encoding is empty exactly when the content is), so no push request is ever
issued for it and it never reaches the publishing collaborator. -/
theorem claim_C9_empty_entries_dropped (repoName : String) (files : List PushFile)
    (round : Int) (latestShaFromApi : String) :
    push_files_to_repo repoName files round latestShaFromApi
      = (files.filter (fun f => !(f.name == "") && !f.content.isEmpty)).map
          (mkPushRequest repoName
            (if round == 2 then some latestShaFromApi else none)) := by
  rw [push_files_to_repo]
  generalize (if round == 2 then some latestShaFromApi else none : Option String)
    = latestSha
  induction files with
  | nil => rfl
  | cons f rest ih =>
    rw [pushLoop_cons, List.filter_cons]
    by_cases hname : f.name == ""
    · have hcond : (f.name == "" || (b64Encode f.content).isEmpty) = true := by
        rw [hname]; rfl
      rw [if_pos hcond, ih]
      have hpred : (!(f.name == "") && !f.content.isEmpty) = false := by
        rw [hname]; rfl
      rw [hpred, if_neg (by simp)]
    · by_cases hcont : f.content.isEmpty
      · have hcond : (f.name == "" || (b64Encode f.content).isEmpty) = true := by
          rw [b64Encode_isEmpty, hcont, Bool.or_true]
        rw [if_pos hcond, ih]
        have hpred : (!(f.name == "") && !f.content.isEmpty) = false := by
          rw [hcont]; simp
        rw [hpred, if_neg (by simp)]
      · have hcond : (f.name == "" || (b64Encode f.content).isEmpty) = false := by
          rw [b64Encode_isEmpty]
          simp [hname, hcont]
        rw [if_neg (by simp [hcond]), ih]
        have hpred : (!(f.name == "") && !f.content.isEmpty) = true := by
          simp [hname, hcont]
        rw [hpred, if_pos rfl, List.map_cons]

end StudentMain
